import Mathlib

/-!
Verification of the aggregation and reconciliation engine of the DataDashboard
repository.

The embedding models `src/database/dbutils.py` (`PGUtils.get_tick_data`,
`PGUtils.get_ohlcv`) and `src/sanity/bhavcopy.py` (`compare_data`).

Modelling conventions:
* Python `str` is modelled as `List Char` (`Str`), so that case conversion,
  slicing and lexicographic comparison are executable in the kernel.
* Timestamps are natural numbers: seconds elapsed since the resampling origin
  (pandas `resample` uses the start of the first day as origin; absolute
  calendar anchoring is irrelevant to the verified properties).
* `float` prices are modelled as `Rat`; integer quantity columns as `Int`.
  The tick rows delivered by `_query_ticks` are modelled with all value
  columns present (the ingested feed populates every column).
* pandas `NaN` cells that arise inside the pipelines (empty resample bins,
  padding of an outer join) are modelled with `Option`.
* Exceptions raised by pandas are modelled with `Except PdError`.
-/

/-- Python strings, modelled as their character lists. -/
abbrev Str := List Char

/-- One row of the `tbt` table as returned by `PGUtils._query_ticks`
(columns `Datetime`, `Ticker`, `LTP`, `LTQ`, `BuyPrice`, `BuyQty`,
`SellPrice`, `SellQty`, `OpenInterest`). -/
structure Tick where
  datetime : Nat
  ticker : Str
  ltp : Rat
  ltq : Int
  buyPrice : Rat
  buyQty : Int
  sellPrice : Rat
  sellQty : Int
  openInterest : Int
deriving DecidableEq, Repr

/-- Exception classes escaping the pandas calls in `dbutils.py`
(`ValueError` / `TypeError`); the message text is not modelled. -/
inductive PdError where
  | valueError
  | typeError
deriving DecidableEq, Repr

/-- The `ORDER BY "Datetime"` of `PGUtils._query_ticks`: the tick collection
sorted by timestamp (stable, keeping arrival order between equal stamps). -/
def sortTicks (l : List Tick) : List Tick :=
  List.insertionSort (fun a b => a.datetime ≤ b.datetime) l

/-- Start of the fixed-width interval containing second `t` for a resample
frequency of `f` seconds (`floor(t / f) * f`). -/
def bucketStart (f : Nat) (t : Nat) : Nat :=
  t / f * f

/-- The ticks of `l` falling into the interval starting at `b`. -/
def bucketTicks (f : Nat) (b : Nat) (l : List Tick) : List Tick :=
  l.filter (fun t => bucketStart f t.datetime == b)

/-- The sequence of bin starts generated by `DataFrame.resample(f"{f}s")` on
the (sorted) index of `l`: every interval boundary from the bin of the first
timestamp up to the bin of the last one, empty bins included. -/
def bins (f : Nat) (l : List Tick) : List Nat :=
  match l.head?, l.getLast? with
  | some a, some z =>
      (List.range (z.datetime / f + 1 - a.datetime / f)).map
        (fun i => (a.datetime / f + i) * f)
  | _, _ => []

/-- One resampled row of `get_tick_data` before `.dropna()`: the `.agg` step
with `last` for every value column and `sum` for `LTQ` (pandas `last` / `sum`
over an empty bin yield `NaN` / `0`). -/
structure SnapRowRaw where
  datetime : Nat
  ticker : Option Str
  ltp : Option Rat
  ltq : Int
  buy_price : Option Rat
  buy_qty : Option Int
  sell_price : Option Rat
  sell_qty : Option Int
  open_interest : Option Int
deriving DecidableEq, Repr

/-- A row of the frame returned by `get_tick_data` (post `.dropna()` and
`.astype`, columns lower-cased). -/
structure SnapRow where
  datetime : Nat
  ticker : Str
  ltp : Rat
  ltq : Int
  buy_price : Rat
  buy_qty : Int
  sell_price : Rat
  sell_qty : Int
  open_interest : Int
deriving DecidableEq, Repr

/-- The `.agg` dictionary of `get_tick_data` applied to the bin starting at
`b` of the time-sorted frame `l`. -/
def aggSnap (f : Nat) (l : List Tick) (b : Nat) : SnapRowRaw :=
  let g := bucketTicks f b l
  { datetime := b
    ticker := (g.map (·.ticker)).getLast?
    ltp := (g.map (·.ltp)).getLast?
    ltq := (g.map (·.ltq)).sum
    buy_price := (g.map (·.buyPrice)).getLast?
    buy_qty := (g.map (·.buyQty)).getLast?
    sell_price := (g.map (·.sellPrice)).getLast?
    sell_qty := (g.map (·.sellQty)).getLast?
    open_interest := (g.map (·.openInterest)).getLast? }

/-- The `.dropna()` of `get_tick_data`: a resampled row survives only if
every value column is populated. -/
def dropnaSnap (x : SnapRowRaw) : Option SnapRow := do
  let tk ← x.ticker
  let lp ← x.ltp
  let bp ← x.buy_price
  let bq ← x.buy_qty
  let sp ← x.sell_price
  let sq ← x.sell_qty
  let oi ← x.open_interest
  pure ⟨x.datetime, tk, lp, x.ltq, bp, bq, sp, sq, oi⟩

/-- The resample-aggregate-dropna pipeline of `get_tick_data` over the
time-sorted frame `l`. Note: the whole frame is resampled at once — there is
no grouping by `Ticker` in `get_tick_data`. -/
def resampleSnaps (f : Nat) (l : List Tick) : List SnapRow :=
  (bins f l).filterMap (fun b => dropnaSnap (aggSnap f l b))

/-- `PGUtils.get_tick_data`, applied to the tick rows the database query
returns for the requested symbol/date range. With zero rows,
`pd.DataFrame([], columns=...)` gives an object-dtype `Datetime` column, so
after `set_index` the index is a plain `Index` and `.resample` raises
`TypeError` for every frequency. With at least one row the `Datetime` column
is inferred as `datetime64` and `.resample` runs; a non-positive frequency
then makes bin generation raise `ValueError`. -/
def get_tick_data (ticks : List Tick) (frequency : Int) :
    Except PdError (List SnapRow) :=
  if (sortTicks ticks).isEmpty then .error .typeError
  else if frequency ≤ 0 then .error .valueError
  else .ok (resampleSnaps frequency.toNat (sortTicks ticks))

/-- One OHLCV row of `get_ohlcv` before `.dropna()`. -/
structure BarRowRaw where
  datetime : Nat
  ticker : Option Str
  open_ : Option Rat
  high : Option Rat
  low : Option Rat
  close : Option Rat
  volume : Int
deriving DecidableEq, Repr

/-- A row of the frame returned by `get_ohlcv` (post `.dropna()`,
`.astype` and column lower-casing). -/
structure BarRow where
  datetime : Nat
  ticker : Str
  open_ : Rat
  high : Rat
  low : Rat
  close : Rat
  volume : Int
deriving DecidableEq, Repr

/-- pandas `max` over a column (`NaN`, i.e. `none`, on an empty bin). -/
def listMax : List Rat → Option Rat
  | [] => none
  | x :: xs => some (xs.foldl max x)

/-- pandas `min` over a column (`none` on an empty bin). -/
def listMin : List Rat → Option Rat
  | [] => none
  | x :: xs => some (xs.foldl min x)

/-- The `.agg` dictionary of `get_ohlcv` applied to the bin starting at `b`
of one instrument's time-sorted group `g`. -/
def aggBar (f : Nat) (g : List Tick) (b : Nat) : BarRowRaw :=
  let gb := bucketTicks f b g
  { datetime := b
    ticker := (gb.map (·.ticker)).getLast?
    open_ := (gb.map (·.ltp)).head?
    high := listMax (gb.map (·.ltp))
    low := listMin (gb.map (·.ltp))
    close := (gb.map (·.ltp)).getLast?
    volume := (gb.map (·.ltq)).sum }

/-- The `.dropna()` of `get_ohlcv`. -/
def dropnaBar (x : BarRowRaw) : Option BarRow := do
  let tk ← x.ticker
  let op ← x.open_
  let hi ← x.high
  let lo ← x.low
  let cl ← x.close
  pure ⟨x.datetime, tk, op, hi, lo, cl, x.volume⟩

/-- The group of `sorted` belonging to instrument `i` (`groupby` preserves
the within-group row order of the sorted frame). -/
def groupOf (sorted : List Tick) (i : Str) : List Tick :=
  sorted.filter (fun t => t.ticker == i)

/-- The bars `get_ohlcv` builds for instrument `i`. -/
def barsFor (f : Nat) (sorted : List Tick) (i : Str) : List BarRow :=
  (bins f (groupOf sorted i)).filterMap
    (fun b => dropnaBar (aggBar f (groupOf sorted i) b))

/-- The group keys of `queried_data.groupby(["Ticker"])`: the distinct
tickers in ascending lexicographic order (pandas `groupby` sorts its keys by
default). -/
def tickersOf (sorted : List Tick) : List Str :=
  List.insertionSort (fun a b : Str => a ≤ b) ((sorted.map (·.ticker)).dedup)

/-- `PGUtils.get_ohlcv`. With no ticks there are no groups and
`pd.concat([])` raises `ValueError`; with at least one group a non-positive
frequency makes the per-group `resample` raise `ValueError`. Otherwise the
per-instrument bar frames are concatenated in group-key order. -/
def get_ohlcv (ticks : List Tick) (frequency : Int) :
    Except PdError (List BarRow) :=
  if (tickersOf (sortTicks ticks)).isEmpty then .error .valueError
  else if frequency ≤ 0 then .error .valueError
  else .ok ((tickersOf (sortTicks ticks)).flatMap
    (fun i => barsFor frequency.toNat (sortTicks ticks) i))

/-- One row of the bhavcopy reference CSV as passed to `compare_data`
(columns relevant to the comparison; the CSV may carry missing cells,
modelled with `Option`). `timestamp` is the trade date: `pd.to_datetime`
parsing of the `%d-%b-%Y` text is modelled as the already-decoded day
code. -/
structure BhavRow where
  timestamp : Nat
  symbol : Str
  series : Str
  open_ : Option Rat
  high : Option Rat
  low : Option Rat
  close : Option Rat
  tottrdqty : Option Int
deriving DecidableEq, Repr

/-- The mutable `bhav_df` object passed to `compare_data`. `cols` is the
frame's column-name list (the Python object's `columns` attribute);
`datetimeCol` and `tickerCol` hold the `datetime` / `ticker` columns once
the function assigns them (absent on entry). The model assumes the frame's
data columns match the `BhavRow` fields. -/
structure BhavObj where
  cols : List Str
  rows : List BhavRow
  datetimeCol : Option (List Nat)
  tickerCol : Option (List Str)
deriving DecidableEq, Repr

/-- The computed-OHLCV `ohlcv_df` object passed to `compare_data`
(the frame produced by `get_ohlcv`). -/
structure OhlcvObj where
  cols : List Str
  rows : List BarRow
deriving DecidableEq, Repr

/-- Instrument-identity normalization of `compare_data`:
`symbol` when `series == "EQ"`, else `symbol + "." + series.upper()[:2]`. -/
def deriveTicker (symbol series : Str) : Str :=
  if series = "EQ".toList then symbol
  else symbol ++ ['.'] ++ (series.map Char.toUpper).take 2

/-- Assigning a column on a pandas frame appends its name only when it is
not already a column. -/
def setColName (cols : List Str) (n : Str) : List Str :=
  if n ∈ cols then cols else cols ++ [n]

/-- `bhav_df.columns = bhav_df.columns.str.lower()`. -/
def lowerCols (b : BhavObj) : BhavObj :=
  { b with cols := b.cols.map (·.map Char.toLower) }

/-- `bhav_df["datetime"] = pd.to_datetime(bhav_df["timestamp"], ...)`. -/
def addDatetimeCol (b : BhavObj) : BhavObj :=
  { b with cols := setColName b.cols "datetime".toList
           datetimeCol := some (b.rows.map (·.timestamp)) }

/-- `bhav_df["ticker"] = bhav_df[["symbol", "series"]].apply(...)`. -/
def addTickerCol (b : BhavObj) : BhavObj :=
  { b with cols := setColName b.cols "ticker".toList
           tickerCol := some (b.rows.map (fun r => deriveTicker r.symbol r.series)) }

/-- Net state of the `bhav_df` object after the three mutating statements
of `compare_data`. -/
def mutatedBhav (b : BhavObj) : BhavObj :=
  addTickerCol (addDatetimeCol (lowerCols b))

/-- A row of the local frame
`bhav_df[["datetime","ticker","open","high","low","close","tottrdqty"]]
.rename(columns={"tottrdqty": "volume"})`. -/
structure WorkRow where
  datetime : Nat
  ticker : Str
  open_ : Option Rat
  high : Option Rat
  low : Option Rat
  close : Option Rat
  volume : Option Int
deriving DecidableEq, Repr

/-- The column selection and rename, reading the mutated object's columns. -/
def bhavWork (b : BhavObj) : List WorkRow :=
  match b.datetimeCol, b.tickerCol with
  | some ds, some ts =>
      (b.rows.zip (ds.zip ts)).map
        (fun p => ⟨p.2.1, p.2.2, p.1.open_, p.1.high, p.1.low, p.1.close,
                   p.1.tottrdqty⟩)
  | _, _ => []

/-- A row of `pd.merge(bhav_df, ohlcv_df, on=["datetime","ticker"],
how="outer", suffixes=("_b","_o"))`: join keys plus both sides' value
columns, `none` standing for the `NaN` padding of an unmatched side (or a
missing reference cell). -/
structure MRow where
  datetime : Nat
  ticker : Str
  open_b : Option Rat
  high_b : Option Rat
  low_b : Option Rat
  close_b : Option Rat
  volume_b : Option Int
  open_o : Option Rat
  high_o : Option Rat
  low_o : Option Rat
  close_o : Option Rat
  volume_o : Option Int
deriving DecidableEq, Repr

/-- Key equality for the outer join. -/
def keyMatch (w : WorkRow) (r : BarRow) : Bool :=
  w.datetime == r.datetime && w.ticker == r.ticker

/-- Merged row for a reference row with no computed match. -/
def mLeft (w : WorkRow) : MRow :=
  ⟨w.datetime, w.ticker, w.open_, w.high, w.low, w.close, w.volume,
   none, none, none, none, none⟩

/-- Merged row for a matched pair. -/
def mBoth (w : WorkRow) (r : BarRow) : MRow :=
  ⟨w.datetime, w.ticker, w.open_, w.high, w.low, w.close, w.volume,
   some r.open_, some r.high, some r.low, some r.close, some r.volume⟩

/-- Merged row for a computed row with no reference match. -/
def mRight (r : BarRow) : MRow :=
  ⟨r.datetime, r.ticker, none, none, none, none, none,
   some r.open_, some r.high, some r.low, some r.close, some r.volume⟩

/-- The full outer join on `(datetime, ticker)`. Row order of the pandas
result (which sorts the join key) is not modelled; the mismatch
classification below is order-independent. -/
def outerMerge (bw : List WorkRow) (orows : List BarRow) : List MRow :=
  bw.flatMap (fun w =>
    match orows.filter (keyMatch w) with
    | [] => [mLeft w]
    | ms => ms.map (mBoth w))
  ++ (orows.filter (fun r => !(bw.any (fun w => keyMatch w r)))).map mRight

/-- The merged frame `compare_data` classifies. -/
def mergedOf (b : BhavObj) (o : OhlcvObj) : List MRow :=
  outerMerge (bhavWork (mutatedBhav b)) o.rows

/-- pandas elementwise `!=` on two possibly-`NaN` cells: `NaN` compared with
anything — including another `NaN` — is unequal. -/
def nePd {α : Type} [DecidableEq α] (a b : Option α) : Bool :=
  match a, b with
  | some x, some y => decide (x ≠ y)
  | _, _ => true

/-- pandas elementwise `<` on two possibly-`NaN` cells: any comparison with
`NaN` is `False`. -/
def ltPd (a b : Option Rat) : Bool :=
  match a, b with
  | some x, some y => decide (x < y)
  | _, _ => false

/-- pandas elementwise `>` on two possibly-`NaN` cells. -/
def gtPd (a b : Option Rat) : Bool :=
  match a, b with
  | some x, some y => decide (x > y)
  | _, _ => false

/-- One data row of a mismatch table: the Python tuple
`(datetime, ticker, <column>_b, <column>_o)` — reference-side value `b`,
computed-side value `o`. -/
structure Entry (α : Type) where
  datetime : Nat
  ticker : Str
  b : Option α
  o : Option α
deriving DecidableEq, Repr

/-- A mismatch table: `None` when no row matched, else a header row followed
by the selected columns of the matching rows. -/
def mkTable {α : Type} (hdr : List Str) (proj : MRow → Entry α)
    (rows : List MRow) : Option (List Str × List (Entry α)) :=
  if rows.isEmpty then none else some (hdr, rows.map proj)

/-- The dictionary `compare_data` returns. -/
structure Report where
  shape_diff : Int
  volume_mismatch : Option (List Str × List (Entry Int))
  high_mismatch : Option (List Str × List (Entry Rat))
  low_mismatch : Option (List Str × List (Entry Rat))
deriving DecidableEq, Repr

/-- `compare_data(bhav_df, ohlcv_df)` from `src/sanity/bhavcopy.py`. The
result carries, besides the report, the final state of the two argument
objects: `bhav_df` is mutated in place by the first three statements, the
remaining statements only rebind the local name; `ohlcv_df` is never
written. -/
def compare_data (bhav_df : BhavObj) (ohlcv_df : OhlcvObj) :
    Report × BhavObj × OhlcvObj :=
  let b' := mutatedBhav bhav_df
  let bw := bhavWork b'
  let merged := outerMerge bw ohlcv_df.rows
  let volRows := merged.filter (fun m => nePd m.volume_b m.volume_o)
  let highRows := merged.filter (fun m => ltPd m.high_b m.high_o)
  let lowRows := merged.filter (fun m => gtPd m.low_b m.low_o)
  ({ shape_diff := (bw.length : Int) - (ohlcv_df.rows.length : Int)
     volume_mismatch :=
       mkTable ["datetime".toList, "ticker".toList, "volume_b".toList,
                "volume_o".toList]
         (fun m => ⟨m.datetime, m.ticker, m.volume_b, m.volume_o⟩) volRows
     high_mismatch :=
       mkTable ["datetime".toList, "ticker".toList, "high_b".toList,
                "high_o".toList]
         (fun m => ⟨m.datetime, m.ticker, m.high_b, m.high_o⟩) highRows
     low_mismatch :=
       mkTable ["datetime".toList, "ticker".toList, "low_b".toList,
                "low_o".toList]
         (fun m => ⟨m.datetime, m.ticker, m.low_b, m.low_o⟩) lowRows },
   b', ohlcv_df)

/-! ## Helper lemmas -/

/-- The head of a list is a member. -/
theorem head?_mem_self {α : Type} {l : List α} {x : α} (h : l.head? = some x) :
    x ∈ l := by
  cases l with
  | nil => simp at h
  | cons a l => simp at h; simp [h]

/-- The last element of a list is a member. -/
theorem getLast?_mem_self {α : Type} {l : List α} {x : α}
    (h : l.getLast? = some x) : x ∈ l := by
  obtain ⟨hne, hx⟩ := List.mem_getLast?_eq_getLast (Option.mem_def.mpr h)
  exact hx ▸ List.getLast_mem hne

/-- The seed of a `max`-fold is dominated by the fold. -/
theorem le_foldl_max {α : Type} [LinearOrder α] (x : α) (l : List α) :
    x ≤ l.foldl max x := by
  induction l generalizing x with
  | nil => exact le_refl x
  | cons a l ih => exact le_trans (le_max_left x a) (ih (max x a))

/-- Every element of a list is dominated by a `max`-fold over it. -/
theorem mem_le_foldl_max {α : Type} [LinearOrder α] {y : α} {l : List α}
    (x : α) (h : y ∈ l) : y ≤ l.foldl max x := by
  induction l generalizing x with
  | nil => simp at h
  | cons a l ih =>
    rcases List.mem_cons.mp h with rfl | hy
    · exact le_trans (le_max_right x y) (le_foldl_max (max x y) l)
    · exact ih (max x a) hy

/-- The seed of a `min`-fold dominates the fold. -/
theorem foldl_min_le {α : Type} [LinearOrder α] (x : α) (l : List α) :
    l.foldl min x ≤ x := by
  induction l generalizing x with
  | nil => exact le_refl x
  | cons a l ih => exact le_trans (ih (min x a)) (min_le_left x a)

/-- A `min`-fold is dominated by every element of the list. -/
theorem foldl_min_le_mem {α : Type} [LinearOrder α] {y : α} {l : List α}
    (x : α) (h : y ∈ l) : l.foldl min x ≤ y := by
  induction l generalizing x with
  | nil => simp at h
  | cons a l ih =>
    rcases List.mem_cons.mp h with rfl | hy
    · exact le_trans (foldl_min_le (min x y) l) (min_le_right x y)
    · exact ih (min x a) hy

/-- Members of a list are bounded by `listMax` when it is defined. -/
theorem le_listMax {x m : Rat} {l : List Rat} (h : x ∈ l)
    (hm : listMax l = some m) : x ≤ m := by
  cases l with
  | nil => simp at h
  | cons a l =>
    simp only [listMax, Option.some.injEq] at hm
    subst hm
    rcases List.mem_cons.mp h with rfl | hx
    · exact le_foldl_max x l
    · exact mem_le_foldl_max a hx

/-- `listMin`, when defined, is a lower bound for the list's members. -/
theorem listMin_le {x m : Rat} {l : List Rat} (h : x ∈ l)
    (hm : listMin l = some m) : m ≤ x := by
  cases l with
  | nil => simp at h
  | cons a l =>
    simp only [listMin, Option.some.injEq] at hm
    subst hm
    rcases List.mem_cons.mp h with rfl | hx
    · exact foldl_min_le x l
    · exact foldl_min_le_mem a hx

instance : IsTotal Tick (fun a b => a.datetime ≤ b.datetime) :=
  ⟨fun a b => Nat.le_total a.datetime b.datetime⟩

instance : IsTrans Tick (fun a b => a.datetime ≤ b.datetime) :=
  ⟨fun _ _ _ h1 h2 => Nat.le_trans h1 h2⟩

/-- `sortTicks` permutes the input. -/
theorem sortTicks_perm (l : List Tick) : List.Perm (sortTicks l) l :=
  List.perm_insertionSort _ l

/-- Membership is preserved by `sortTicks`. -/
theorem mem_sortTicks {l : List Tick} {t : Tick} :
    t ∈ sortTicks l ↔ t ∈ l :=
  (sortTicks_perm l).mem_iff

/-- `sortTicks` sorts by timestamp. -/
theorem sortTicks_sorted (l : List Tick) :
    List.Sorted (fun a b => a.datetime ≤ b.datetime) (sortTicks l) :=
  List.sorted_insertionSort _ l

/-- In a timestamp-sorted list every member's stamp is bounded by the last
element's stamp. -/
theorem sorted_le_getLast {l : List Tick}
    (hs : List.Sorted (fun a b => a.datetime ≤ b.datetime) l)
    {x z : Tick} (hx : x ∈ l) (hz : l.getLast? = some z) :
    x.datetime ≤ z.datetime := by
  induction l with
  | nil => simp at hx
  | cons a l ih =>
    cases l with
    | nil =>
      simp at hx hz
      simp [hx, hz]
    | cons b l' =>
      rw [List.getLast?_cons_cons] at hz
      rcases List.mem_cons.mp hx with rfl | hx'
      · exact le_trans
          (List.rel_of_sorted_cons hs _ (getLast?_mem_self hz))
          (le_refl _)
      · exact ih (List.sorted_cons.mp hs).2 hx' hz

/-- Membership in a bucket's tick list unpacked. -/
theorem mem_of_bucketTicks {f b : Nat} {l : List Tick} {t : Tick}
    (h : t ∈ bucketTicks f b l) : t ∈ l ∧ bucketStart f t.datetime = b := by
  have h' := List.mem_filter.mp h
  exact ⟨h'.1, by simpa using h'.2⟩

/-- Membership in a bucket's tick list established. -/
theorem mem_bucketTicks {f b : Nat} {l : List Tick} {t : Tick}
    (htl : t ∈ l) (hb : bucketStart f t.datetime = b) :
    t ∈ bucketTicks f b l :=
  List.mem_filter.mpr ⟨htl, by simp [hb]⟩

/-- Every occupied interval's start appears among the generated bins. -/
theorem mem_bins {f : Nat} {l : List Tick}
    (hs : List.Sorted (fun a b => a.datetime ≤ b.datetime) l)
    {t : Tick} (ht : t ∈ l) : bucketStart f t.datetime ∈ bins f l := by
  cases l with
  | nil => simp at ht
  | cons a l' =>
    have hz := List.getLast?_eq_getLast (a :: l') (List.cons_ne_nil a l')
    set z := (a :: l').getLast (List.cons_ne_nil a l') with hzdef
    have hat : a.datetime ≤ t.datetime := by
      rcases List.mem_cons.mp ht with rfl | ht'
      · exact le_refl _
      · exact List.rel_of_sorted_cons hs _ ht'
    have htz : t.datetime ≤ z.datetime := sorted_le_getLast hs ht hz
    have hdiva : a.datetime / f ≤ t.datetime / f := Nat.div_le_div_right hat
    have hdivz : t.datetime / f ≤ z.datetime / f := Nat.div_le_div_right htz
    simp only [bins, List.head?_cons, hz]
    apply List.mem_map.mpr
    refine ⟨t.datetime / f - a.datetime / f, List.mem_range.mpr (by omega), ?_⟩
    have : a.datetime / f + (t.datetime / f - a.datetime / f) = t.datetime / f := by
      omega
    rw [this]
    rfl

/-- The generated bins are strictly increasing. -/
theorem bins_pairwise_lt {f : Nat} (hf : 0 < f) (l : List Tick) :
    List.Pairwise (· < ·) (bins f l) := by
  unfold bins
  split
  · apply List.pairwise_map.mpr
    apply (List.pairwise_lt_range _).imp
    intro i j hij
    exact (Nat.mul_lt_mul_right hf).mpr (by omega)
  · exact List.Pairwise.nil

/-- Mapping a bin-faithful extraction over a `filterMap` of the bins yields
a sublist of the bins. -/
theorem filterMap_dt_sublist {ρ : Type} (g : Nat → Option ρ) (dt : ρ → Nat)
    (hdt : ∀ b r, g b = some r → dt r = b) (bs : List Nat) :
    List.Sublist ((bs.filterMap g).map dt) bs := by
  induction bs with
  | nil => simp
  | cons b bs ih =>
    cases hgb : g b with
    | none =>
      rw [List.filterMap_cons_none hgb]
      exact ih.cons b
    | some r =>
      rw [List.filterMap_cons_some hgb, List.map_cons, hdt b r hgb]
      exact ih.cons₂ b

/-- Membership characterization for a `filterMap` over the bins: the rows of
the result correspond exactly to the occupied intervals. -/
theorem mem_filterMap_bins {ρ : Type} {f : Nat} {l : List Tick}
    (hs : List.Sorted (fun a b => a.datetime ≤ b.datetime) l)
    (g : Nat → Option ρ)
    (hocc : ∀ b r, g b = some r → ∃ t ∈ l, bucketStart f t.datetime = b)
    (r : ρ) :
    r ∈ (bins f l).filterMap g ↔
      ∃ b, (∃ t ∈ l, bucketStart f t.datetime = b) ∧ g b = some r := by
  constructor
  · intro h
    obtain ⟨b, _, hgb⟩ := List.mem_filterMap.mp h
    exact ⟨b, hocc b r hgb, hgb⟩
  · rintro ⟨b, ⟨t, htl, hbt⟩, hgb⟩
    exact List.mem_filterMap.mpr ⟨b, hbt ▸ mem_bins hs htl, hgb⟩

/-- A mapped list with a last element comes from a non-empty list. -/
theorem ne_nil_of_map_getLast? {α β : Type} {l : List α} {f : α → β} {y : β}
    (h : (l.map f).getLast? = some y) : l ≠ [] := by
  intro hnil
  subst hnil
  simp at h

/-- A non-empty bucket witnesses an occupied interval. -/
theorem bucketTicks_occupied {f b : Nat} {l : List Tick}
    (h : bucketTicks f b l ≠ []) :
    ∃ t ∈ l, bucketStart f t.datetime = b := by
  cases hb : bucketTicks f b l with
  | nil => exact absurd hb h
  | cons t rest =>
    have ht : t ∈ bucketTicks f b l := hb ▸ List.mem_cons_self t rest
    obtain ⟨h1, h2⟩ := mem_of_bucketTicks ht
    exact ⟨t, h1, h2⟩

/-- Unpacking a surviving row of `get_tick_data`'s `.dropna()`. -/
theorem dropnaSnap_eq_some {x : SnapRowRaw} {r : SnapRow}
    (h : dropnaSnap x = some r) :
    r.datetime = x.datetime ∧ x.ticker = some r.ticker ∧
    x.ltp = some r.ltp ∧ r.ltq = x.ltq ∧
    x.buy_price = some r.buy_price ∧ x.buy_qty = some r.buy_qty ∧
    x.sell_price = some r.sell_price ∧ x.sell_qty = some r.sell_qty ∧
    x.open_interest = some r.open_interest := by
  simp only [dropnaSnap, bind, Option.bind_eq_some, Option.pure_def,
    Option.some.injEq] at h
  obtain ⟨tk, htk, lp, hlp, bp, hbp, bq, hbq, sp, hsp, sq, hsq, oi, hoi, hr⟩ := h
  subst hr
  exact ⟨rfl, htk, hlp, rfl, hbp, hbq, hsp, hsq, hoi⟩

/-- Unpacking a surviving row of `get_ohlcv`'s `.dropna()`. -/
theorem dropnaBar_eq_some {x : BarRowRaw} {r : BarRow}
    (h : dropnaBar x = some r) :
    r.datetime = x.datetime ∧ x.ticker = some r.ticker ∧
    x.open_ = some r.open_ ∧ x.high = some r.high ∧
    x.low = some r.low ∧ x.close = some r.close ∧ r.volume = x.volume := by
  simp only [dropnaBar, bind, Option.bind_eq_some, Option.pure_def,
    Option.some.injEq] at h
  obtain ⟨tk, htk, op, hop, hi, hhi, lo, hlo, cl, hcl, hr⟩ := h
  subst hr
  exact ⟨rfl, htk, hop, hhi, hlo, hcl, rfl⟩

/-- The aggregated resample row of a bucket whose last tick is `t` survives
`.dropna()` and draws every `last`-aggregated column from `t`, with the
`LTQ` column summed over the bucket. -/
theorem aggSnap_last {f b : Nat} {l : List Tick} {t : Tick}
    (ht : (bucketTicks f b l).getLast? = some t) :
    dropnaSnap (aggSnap f l b) =
      some ⟨b, t.ticker, t.ltp, ((bucketTicks f b l).map (·.ltq)).sum,
            t.buyPrice, t.buyQty, t.sellPrice, t.sellQty, t.openInterest⟩ := by
  have hmap : ∀ {β : Type} (g : Tick → β),
      ((bucketTicks f b l).map g).getLast? = some (g t) := by
    intro β g
    rw [List.getLast?_map, ht]
    rfl
  simp only [dropnaSnap, aggSnap, hmap, bind, Option.some_bind, Option.pure_def]

/-- The aggregated bar row of a bucket with first tick `u` and last tick `t`
survives `.dropna()`, reading `open` from `u`, `close`/`ticker` from `t`, the
extrema from the whole bucket and `volume` as the bucket sum. -/
theorem aggBar_first_last {f b : Nat} {g : List Tick} {u t : Tick} {hi lo : Rat}
    (hu : (bucketTicks f b g).head? = some u)
    (ht : (bucketTicks f b g).getLast? = some t)
    (hhi : listMax ((bucketTicks f b g).map (·.ltp)) = some hi)
    (hlo : listMin ((bucketTicks f b g).map (·.ltp)) = some lo) :
    dropnaBar (aggBar f g b) =
      some ⟨b, t.ticker, u.ltp, hi, lo, t.ltp,
            ((bucketTicks f b g).map (·.ltq)).sum⟩ := by
  have hmapl : ∀ {β : Type} (gg : Tick → β),
      ((bucketTicks f b g).map gg).getLast? = some (gg t) := by
    intro β gg
    rw [List.getLast?_map, ht]
    rfl
  have hmaph : ((bucketTicks f b g).map (·.ltp)).head? = some u.ltp := by
    rw [List.head?_map, hu]
    rfl
  simp only [dropnaBar, aggBar, hmapl, hmaph, hhi, hlo, bind, Option.some_bind,
    Option.pure_def]

/-- Rows of `resampleSnaps` correspond exactly to the occupied intervals of
the whole (multi-instrument) frame. -/
theorem mem_resampleSnaps {f : Nat} {l : List Tick}
    (hs : List.Sorted (fun a b => a.datetime ≤ b.datetime) l) (r : SnapRow) :
    r ∈ resampleSnaps f l ↔
      ∃ b, (∃ t ∈ l, bucketStart f t.datetime = b) ∧
        dropnaSnap (aggSnap f l b) = some r := by
  apply mem_filterMap_bins hs
  intro b r' hgb
  obtain ⟨_, htk, _⟩ := dropnaSnap_eq_some hgb
  exact bucketTicks_occupied (ne_nil_of_map_getLast? htk)

/-- Rows of `barsFor` correspond exactly to the occupied intervals of one
instrument's group. -/
theorem mem_barsFor {f : Nat} {sorted : List Tick}
    (hs : List.Sorted (fun a b => a.datetime ≤ b.datetime) sorted)
    (i : Str) (r : BarRow) :
    r ∈ barsFor f sorted i ↔
      ∃ b, (∃ t ∈ groupOf sorted i, bucketStart f t.datetime = b) ∧
        dropnaBar (aggBar f (groupOf sorted i) b) = some r := by
  apply mem_filterMap_bins
  · exact List.Pairwise.sublist (List.filter_sublist _) hs
  · intro b r' hgb
    obtain ⟨_, htk, _⟩ := dropnaBar_eq_some hgb
    exact bucketTicks_occupied (ne_nil_of_map_getLast? htk)

/-- Group membership unpacked. -/
theorem mem_groupOf {sorted : List Tick} {i : Str} {t : Tick} :
    t ∈ groupOf sorted i ↔ t ∈ sorted ∧ t.ticker = i := by
  unfold groupOf
  rw [List.mem_filter]
  simp

/-- Every bar of instrument `i`'s group carries ticker `i`. -/
theorem barsFor_ticker {f : Nat} {sorted : List Tick}
    (hs : List.Sorted (fun a b => a.datetime ≤ b.datetime) sorted)
    {i : Str} {r : BarRow} (h : r ∈ barsFor f sorted i) : r.ticker = i := by
  obtain ⟨b, _, hgb⟩ := (mem_barsFor hs i r).mp h
  obtain ⟨_, htk, _⟩ := dropnaBar_eq_some hgb
  have hmem : r.ticker ∈ (bucketTicks f b (groupOf sorted i)).map (·.ticker) :=
    getLast?_mem_self htk
  obtain ⟨t, htmem, hteq⟩ := List.mem_map.mp hmem
  have := (mem_groupOf.mp (mem_of_bucketTicks htmem).1).2
  rw [← hteq, this]

/-! ## Claim C8 -/

/-- C8 counterexample: the claim asserts that for every frequency ≤ 0
resampling fails with `InvalidFrequencyError`, rejected before aggregation.
The repository defines no `InvalidFrequencyError` and validates nothing: on
a non-empty collection with frequency 0 the failure is the resampling
library's `ValueError`, and on the empty collection the failure at
frequency 0 is the very same `TypeError` raised at the valid frequency 1 —
the zero-row frame's object-dtype index is rejected before any frequency
handling, so no frequency rejection takes place there at all. -/
theorem c8_counterexample :
    get_tick_data [(⟨0, "X".toList, 100, 1, 2, 3, 4, 5, 6⟩ : Tick)] 0 =
        Except.error PdError.valueError ∧
      get_tick_data ([] : List Tick) 0 = Except.error PdError.typeError ∧
      get_tick_data ([] : List Tick) 1 = Except.error PdError.typeError :=
  ⟨rfl, rfl, rfl⟩

/-- C8 (amended): the repository defines no `InvalidFrequencyError` and
performs no frequency validation. For a NON-EMPTY tick collection a
frequency ≤ 0 makes both resampling and bar-building fail with the
resampling library's `ValueError`, after the tick query but before any
aggregated row is produced. On an empty collection both fail for reasons
independent of the frequency: resampling rejects the zero-row frame's
non-datetime index with a `TypeError` for every frequency, and bar-building
fails concatenating zero per-instrument frames with a `ValueError`. -/
theorem c8_invalid_frequency_amended (ticks : List Tick) (frequency : Int)
    (hne : ticks ≠ []) (hf : frequency ≤ 0) :
    get_tick_data ticks frequency = Except.error PdError.valueError ∧
      get_ohlcv ticks frequency = Except.error PdError.valueError ∧
      (∀ f : Int, get_tick_data [] f = Except.error PdError.typeError) ∧
      (∀ f : Int, get_ohlcv [] f = Except.error PdError.valueError) := by
  have hsne : sortTicks ticks ≠ [] := by
    intro h0
    have hp := (sortTicks_perm ticks).symm
    rw [h0] at hp
    exact hne (List.length_eq_zero.mp (hp.length_eq.trans rfl))
  have htks : tickersOf (sortTicks ticks) ≠ [] := by
    intro h0
    have hlen := (List.perm_insertionSort (fun a b : Str => a ≤ b)
      ((sortTicks ticks).map (·.ticker)).dedup).length_eq
    rw [show List.insertionSort (fun a b : Str => a ≤ b)
        ((sortTicks ticks).map (·.ticker)).dedup = tickersOf (sortTicks ticks)
        from rfl, h0] at hlen
    have hd : ((sortTicks ticks).map (·.ticker)).dedup = [] :=
      List.length_eq_zero.mp hlen.symm
    have : (sortTicks ticks).map (·.ticker) = [] := (List.dedup_eq_nil _).mp hd
    exact hsne (List.map_eq_nil_iff.mp this)
  refine ⟨?_, ?_, fun f => rfl, fun f => rfl⟩
  · simp [get_tick_data, List.isEmpty_iff, hsne, hf]
  · simp [get_ohlcv, List.isEmpty_iff, htks, hf]

/-- C8 witness: the amended theorem applied at a concrete non-empty
collection and frequency 0. -/
theorem c8_invalid_frequency_amended_witness :
    ([(⟨0, "X".toList, 100, 1, 2, 3, 4, 5, 6⟩ : Tick)] ≠ []) ∧
      ((0 : Int) ≤ 0) ∧
      get_tick_data [(⟨0, "X".toList, 100, 1, 2, 3, 4, 5, 6⟩ : Tick)] 0 =
        Except.error PdError.valueError ∧
      get_ohlcv [(⟨0, "X".toList, 100, 1, 2, 3, 4, 5, 6⟩ : Tick)] 0 =
        Except.error PdError.valueError ∧
      (∀ f : Int, get_tick_data [] f = Except.error PdError.typeError) ∧
      (∀ f : Int, get_ohlcv [] f = Except.error PdError.valueError) :=
  ⟨by simp, by decide,
    c8_invalid_frequency_amended _ 0 (by simp) (by decide)⟩

/-! ## Claim C1 -/

/-- C1 counterexample: the claim asserts that ticks are partitioned by
`(instrument_id, interval_start)` and that ticks of different instruments in
the same interval never share a bucket. `get_tick_data` resamples the whole
frame without grouping by `Ticker`: with one tick of "A" and one tick of "B"
in the same 60-second interval, instrument "A" occupies bucket 0 yet the
output contains no row for "A" — both ticks were merged into a single
snapshot carrying ticker "B". -/
theorem c1_counterexample :
    (∃ t ∈ [(⟨0, "A".toList, 100, 1, 11, 5, 12, 6, 7⟩ : Tick),
            (⟨1, "B".toList, 200, 2, 201, 5, 202, 6, 9⟩ : Tick)],
        t.ticker = "A".toList ∧ bucketStart 60 t.datetime = 0) ∧
      get_tick_data
        [(⟨0, "A".toList, 100, 1, 11, 5, 12, 6, 7⟩ : Tick),
         (⟨1, "B".toList, 200, 2, 201, 5, 202, 6, 9⟩ : Tick)] 60 =
        Except.ok [⟨0, "B".toList, 200, 3, 201, 5, 202, 6, 9⟩] ∧
      ∀ r ∈ [(⟨0, "B".toList, 200, 3, 201, 5, 202, 6, 9⟩ : SnapRow)],
        ¬ r.ticker = "A".toList :=
  ⟨by decide, rfl, by decide⟩

/-- C1 (amended): `get_tick_data` buckets by `interval_start` alone — not by
`(instrument_id, interval_start)`. For a positive frequency it emits exactly
one snapshot per non-empty interval of the whole (possibly multi-instrument)
frame; each snapshot's ticker, last price, quote-side fields and open
interest come from the temporally-last tick of the interval across all
instruments, and its `ltq` is the sum of `LTQ` over all of the interval's
ticks regardless of instrument. No snapshot exists for an unoccupied
interval. -/
theorem c1_resample_interval_buckets (ticks : List Tick) (frequency : Int)
    (out : List SnapRow) (hf : 0 < frequency)
    (h : get_tick_data ticks frequency = Except.ok out) :
    (∀ r ∈ out, ∃ t ∈ ticks,
        bucketStart frequency.toNat t.datetime = r.datetime) ∧
      ∀ b, (∃ t ∈ ticks, bucketStart frequency.toNat t.datetime = b) →
        ∃ r, r ∈ out ∧ r.datetime = b ∧
          (∀ r' ∈ out, r'.datetime = b → r' = r) ∧
          (∃ t, (bucketTicks frequency.toNat b (sortTicks ticks)).getLast? =
              some t ∧
            r.ticker = t.ticker ∧ r.ltp = t.ltp ∧ r.buy_price = t.buyPrice ∧
            r.buy_qty = t.buyQty ∧ r.sell_price = t.sellPrice ∧
            r.sell_qty = t.sellQty ∧ r.open_interest = t.openInterest) ∧
          r.ltq =
            ((bucketTicks frequency.toNat b (sortTicks ticks)).map
              (·.ltq)).sum := by
  have hfn : ¬ frequency ≤ 0 := not_le.mpr hf
  by_cases hemp : (sortTicks ticks).isEmpty = true
  · have hs0 : sortTicks ticks = [] := List.isEmpty_iff.mp hemp
    simp [get_tick_data, hs0] at h
  · simp only [get_tick_data, hemp, if_false, hfn, ite_false, Except.ok.injEq,
      Bool.false_eq_true] at h
    subst h
    have hsor := sortTicks_sorted ticks
    constructor
    · intro r hr
      obtain ⟨b, ⟨t, htL, hbt⟩, hsome⟩ :=
        (mem_resampleSnaps hsor r).mp hr
      have hdt : r.datetime = b := (dropnaSnap_eq_some hsome).1
      exact ⟨t, mem_sortTicks.mp htL, by rw [hbt, hdt]⟩
    · rintro b ⟨t, ht, hbt⟩
      have htL : t ∈ sortTicks ticks := mem_sortTicks.mpr ht
      have hbne : bucketTicks frequency.toNat b (sortTicks ticks) ≠ [] := by
        intro h0
        have hmem := mem_bucketTicks htL hbt
        rw [h0] at hmem
        simp at hmem
      have hlast := List.getLast?_eq_getLast _ hbne
      have hagg := aggSnap_last hlast
      refine ⟨_, (mem_resampleSnaps hsor _).mpr ⟨b, ⟨t, htL, hbt⟩, hagg⟩,
        rfl, ?_, ⟨_, hlast, rfl, rfl, rfl, rfl, rfl, rfl, rfl⟩, rfl⟩
      intro r' hr' hdt'
      obtain ⟨b', ⟨t', ht'L, hbt'⟩, hsome'⟩ :=
        (mem_resampleSnaps hsor r').mp hr'
      have hb' : r'.datetime = b' := (dropnaSnap_eq_some hsome').1
      rw [hdt'] at hb'
      rw [← hb'] at hsome'
      rw [hagg, Option.some.injEq] at hsome'
      exact hsome'.symm

/-- C1 witness: the amended theorem applied to a concrete two-instrument
collection sharing one 60-second interval. -/
theorem c1_resample_interval_buckets_witness :
    (0 : Int) < 60 ∧
      get_tick_data
        [(⟨0, "A".toList, 100, 1, 11, 5, 12, 6, 7⟩ : Tick),
         (⟨1, "B".toList, 200, 2, 201, 5, 202, 6, 9⟩ : Tick)] 60 =
        Except.ok [⟨0, "B".toList, 200, 3, 201, 5, 202, 6, 9⟩] ∧
      ((∀ r ∈ [(⟨0, "B".toList, 200, 3, 201, 5, 202, 6, 9⟩ : SnapRow)],
          ∃ t ∈ [(⟨0, "A".toList, 100, 1, 11, 5, 12, 6, 7⟩ : Tick),
                 (⟨1, "B".toList, 200, 2, 201, 5, 202, 6, 9⟩ : Tick)],
            bucketStart 60 t.datetime = r.datetime) ∧
        ∀ b, (∃ t ∈ [(⟨0, "A".toList, 100, 1, 11, 5, 12, 6, 7⟩ : Tick),
                     (⟨1, "B".toList, 200, 2, 201, 5, 202, 6, 9⟩ : Tick)],
                bucketStart 60 t.datetime = b) →
          ∃ r, r ∈ [(⟨0, "B".toList, 200, 3, 201, 5, 202, 6, 9⟩ : SnapRow)] ∧
            r.datetime = b ∧
            (∀ r' ∈ [(⟨0, "B".toList, 200, 3, 201, 5, 202, 6, 9⟩ : SnapRow)],
              r'.datetime = b → r' = r) ∧
            (∃ t, (bucketTicks 60 b (sortTicks
                [(⟨0, "A".toList, 100, 1, 11, 5, 12, 6, 7⟩ : Tick),
                 (⟨1, "B".toList, 200, 2, 201, 5, 202, 6, 9⟩ : Tick)])).getLast?
                = some t ∧
              r.ticker = t.ticker ∧ r.ltp = t.ltp ∧ r.buy_price = t.buyPrice ∧
              r.buy_qty = t.buyQty ∧ r.sell_price = t.sellPrice ∧
              r.sell_qty = t.sellQty ∧ r.open_interest = t.openInterest) ∧
            r.ltq = ((bucketTicks 60 b (sortTicks
                [(⟨0, "A".toList, 100, 1, 11, 5, 12, 6, 7⟩ : Tick),
                 (⟨1, "B".toList, 200, 2, 201, 5, 202, 6, 9⟩ : Tick)])).map
              (·.ltq)).sum) :=
  ⟨by decide, rfl, c1_resample_interval_buckets _ 60 _ (by decide) rfl⟩

/-! ## Claim C2 -/

/-- C2: every bar materialized by `get_ohlcv` satisfies
`low ≤ open ≤ high` and `low ≤ close ≤ high` — open and close are drawn from
the bucket's price set, whose extrema are high and low. -/
theorem c2_bar_ohlc_invariant (ticks : List Tick) (frequency : Int)
    (out : List BarRow) (h : get_ohlcv ticks frequency = Except.ok out) :
    ∀ r ∈ out, r.low ≤ r.open_ ∧ r.open_ ≤ r.high ∧
      r.low ≤ r.close ∧ r.close ≤ r.high := by
  simp only [get_ohlcv] at h
  split at h
  · simp at h
  · split at h
    · simp at h
    · rw [Except.ok.injEq] at h
      subst h
      intro r hr
      obtain ⟨i, _, hri⟩ := List.mem_flatMap.mp hr
      obtain ⟨b, _, hsome⟩ :=
        (mem_barsFor (sortTicks_sorted ticks) i r).mp hri
      obtain ⟨_, _, hop, hhi, hlo, hcl, _⟩ := dropnaBar_eq_some hsome
      have h1 : r.open_ ∈
          (bucketTicks frequency.toNat b
            (groupOf (sortTicks ticks) i)).map (·.ltp) :=
        head?_mem_self hop
      have h2 : r.close ∈
          (bucketTicks frequency.toNat b
            (groupOf (sortTicks ticks) i)).map (·.ltp) :=
        getLast?_mem_self hcl
      exact ⟨listMin_le h1 hlo, le_listMax h1 hhi,
        listMin_le h2 hlo, le_listMax h2 hhi⟩

/-- C2 witness: the invariant applied to a concrete bucket with three
ticks. -/
theorem c2_bar_ohlc_invariant_witness :
    get_ohlcv
        [(⟨0, "X".toList, 100, 10, 1, 1, 1, 1, 1⟩ : Tick),
         (⟨3, "X".toList, 102, 5, 1, 1, 1, 1, 1⟩ : Tick),
         (⟨7, "X".toList, 99, 8, 1, 1, 1, 1, 1⟩ : Tick)] 10 =
      Except.ok [⟨0, "X".toList, 100, 102, 99, 99, 23⟩] ∧
    ∀ r ∈ [(⟨0, "X".toList, 100, 102, 99, 99, 23⟩ : BarRow)],
      r.low ≤ r.open_ ∧ r.open_ ≤ r.high ∧ r.low ≤ r.close ∧ r.close ≤ r.high :=
  ⟨rfl, c2_bar_ohlc_invariant
    [(⟨0, "X".toList, 100, 10, 1, 1, 1, 1, 1⟩ : Tick),
     (⟨3, "X".toList, 102, 5, 1, 1, 1, 1, 1⟩ : Tick),
     (⟨7, "X".toList, 99, 8, 1, 1, 1, 1, 1⟩ : Tick)] 10
    [⟨0, "X".toList, 100, 102, 99, 99, 23⟩] rfl⟩

/-! ## Claim C6 -/

/-- C6: neither pipeline materializes a row for a bucket containing zero
ticks — for `get_tick_data` no snapshot exists for an interval holding no
tick at all, and for `get_ohlcv` no bar exists for an
`(instrument, interval)` pair the instrument has no tick in. The output is
sparse: nothing is zero-filled. -/
theorem c6_no_empty_bucket_rows (ticks : List Tick) (frequency : Int)
    (i : Str) (b : Nat) (outS : List SnapRow) (outB : List BarRow)
    (hs : get_tick_data ticks frequency = Except.ok outS)
    (hb : get_ohlcv ticks frequency = Except.ok outB) :
    ((∀ t ∈ ticks, bucketStart frequency.toNat t.datetime ≠ b) →
        ∀ r ∈ outS, r.datetime ≠ b) ∧
      ((∀ t ∈ ticks, t.ticker = i →
          bucketStart frequency.toNat t.datetime ≠ b) →
        ∀ r ∈ outB, r.ticker = i → r.datetime ≠ b) := by
  constructor
  · intro hno r hr hrb
    simp only [get_tick_data] at hs
    split at hs
    · simp at hs
    · split at hs
      · simp at hs
      · rw [Except.ok.injEq] at hs
        subst hs
        obtain ⟨b', ⟨t, htL, hbt⟩, hsome⟩ :=
          (mem_resampleSnaps (sortTicks_sorted ticks) r).mp hr
        have hdt : r.datetime = b' := (dropnaSnap_eq_some hsome).1
        rw [hrb] at hdt
        exact hno t (mem_sortTicks.mp htL) (hbt.trans hdt.symm)
  · intro hno r hr hri hrb
    simp only [get_ohlcv] at hb
    split at hb
    · simp at hb
    · split at hb
      · simp at hb
      · rw [Except.ok.injEq] at hb
        subst hb
        obtain ⟨j, _, hrj⟩ := List.mem_flatMap.mp hr
        have hj : r.ticker = j := barsFor_ticker (sortTicks_sorted ticks) hrj
        obtain ⟨b', ⟨t, htG, hbt⟩, hsome⟩ :=
          (mem_barsFor (sortTicks_sorted ticks) j r).mp hrj
        have hdt : r.datetime = b' := (dropnaBar_eq_some hsome).1
        obtain ⟨htL, hti⟩ := mem_groupOf.mp htG
        rw [hrb] at hdt
        refine hno t (mem_sortTicks.mp htL) ?_ (hbt.trans hdt.symm)
        rw [hti, ← hj, hri]

/-- C6 witness: the theorem applied to a concrete collection, an instrument
absent from bucket 10, and an interval (bucket 20) holding no tick. -/
theorem c6_no_empty_bucket_rows_witness :
    get_tick_data [(⟨0, "X".toList, 100, 10, 1, 1, 1, 1, 1⟩ : Tick)] 5 =
        Except.ok [⟨0, "X".toList, 100, 10, 1, 1, 1, 1, 1⟩] ∧
      get_ohlcv [(⟨0, "X".toList, 100, 10, 1, 1, 1, 1, 1⟩ : Tick)] 5 =
        Except.ok [⟨0, "X".toList, 100, 100, 100, 100, 10⟩] ∧
      (((∀ t ∈ [(⟨0, "X".toList, 100, 10, 1, 1, 1, 1, 1⟩ : Tick)],
          bucketStart (5 : Int).toNat t.datetime ≠ 20) →
        ∀ r ∈ [(⟨0, "X".toList, 100, 10, 1, 1, 1, 1, 1⟩ : SnapRow)],
          r.datetime ≠ 20) ∧
      ((∀ t ∈ [(⟨0, "X".toList, 100, 10, 1, 1, 1, 1, 1⟩ : Tick)],
          t.ticker = "Y".toList →
            bucketStart (5 : Int).toNat t.datetime ≠ 20) →
        ∀ r ∈ [(⟨0, "X".toList, 100, 100, 100, 100, 10⟩ : BarRow)],
          r.ticker = "Y".toList → r.datetime ≠ 20)) :=
  ⟨rfl, rfl, c6_no_empty_bucket_rows _ 5 "Y".toList 20 _ _ rfl rfl⟩

/-! ## Claim C9 -/

instance : IsAntisymm Tick (fun a b => a.datetime < b.datetime) :=
  ⟨fun _ _ h1 h2 => absurd (Nat.lt_trans h1 h2) (Nat.lt_irrefl _)⟩

/-- With pairwise-distinct timestamps the sorted frame is strictly
increasing. -/
theorem sortTicks_sorted_strict (l : List Tick)
    (hnd : (l.map (·.datetime)).Nodup) :
    List.Sorted (fun a b => a.datetime < b.datetime) (sortTicks l) := by
  have h1 := sortTicks_sorted l
  have h2 : ((sortTicks l).map (·.datetime)).Nodup :=
    (((sortTicks_perm l).map _).nodup_iff).mpr hnd
  have h3 : List.Pairwise (fun a b : Tick => a.datetime ≠ b.datetime)
      (sortTicks l) := List.pairwise_map.mp h2
  exact (h1.and h3).imp fun h => Nat.lt_of_le_of_ne h.1 h.2

/-- C9: the resampled output is invariant under permuting the input tick
collection when timestamps are pairwise distinct — the pipeline re-sorts by
timestamp before bucketing. -/
theorem c9_sort_invariance (l₁ l₂ : List Tick) (frequency : Int)
    (hp : List.Perm l₁ l₂) (hnd : (l₁.map (·.datetime)).Nodup) :
    get_tick_data l₁ frequency = get_tick_data l₂ frequency := by
  have hkey : sortTicks l₁ = sortTicks l₂ := by
    apply List.eq_of_perm_of_sorted
      (r := fun a b : Tick => a.datetime < b.datetime)
    · exact ((sortTicks_perm l₁).trans hp).trans (sortTicks_perm l₂).symm
    · exact sortTicks_sorted_strict l₁ hnd
    · exact sortTicks_sorted_strict l₂ ((hp.map _).nodup_iff.mp hnd)
  simp [get_tick_data, hkey]

/-- C9 witness: the invariance applied to a concrete two-tick collection and
its reversal. -/
theorem c9_sort_invariance_witness :
    List.Perm
        [(⟨0, "X".toList, 100, 10, 1, 1, 1, 1, 1⟩ : Tick),
         (⟨3, "Y".toList, 102, 5, 1, 1, 1, 1, 1⟩ : Tick)]
        [(⟨3, "Y".toList, 102, 5, 1, 1, 1, 1, 1⟩ : Tick),
         (⟨0, "X".toList, 100, 10, 1, 1, 1, 1, 1⟩ : Tick)] ∧
      ([(⟨0, "X".toList, 100, 10, 1, 1, 1, 1, 1⟩ : Tick),
        (⟨3, "Y".toList, 102, 5, 1, 1, 1, 1, 1⟩ : Tick)].map
          (·.datetime)).Nodup ∧
      get_tick_data
          [(⟨0, "X".toList, 100, 10, 1, 1, 1, 1, 1⟩ : Tick),
           (⟨3, "Y".toList, 102, 5, 1, 1, 1, 1, 1⟩ : Tick)] 5 =
        get_tick_data
          [(⟨3, "Y".toList, 102, 5, 1, 1, 1, 1, 1⟩ : Tick),
           (⟨0, "X".toList, 100, 10, 1, 1, 1, 1, 1⟩ : Tick)] 5 :=
  ⟨by decide, by decide, c9_sort_invariance _ _ 5 (by decide) (by decide)⟩

/-! ## Claim C7 -/

/-- The group keys are sorted ascending. -/
theorem tickersOf_sorted (L : List Tick) :
    List.Sorted (fun a b : Str => a ≤ b) (tickersOf L) :=
  List.sorted_insertionSort _ _

/-- The group keys are distinct. -/
theorem tickersOf_nodup (L : List Tick) : (tickersOf L).Nodup :=
  (List.perm_insertionSort _ _).nodup_iff.mpr (List.nodup_dedup _)

/-- Membership in the group keys is membership among the tickers. -/
theorem mem_tickersOf {L : List Tick} {i : Str} :
    i ∈ tickersOf L ↔ ∃ t ∈ L, t.ticker = i := by
  unfold tickersOf
  rw [(List.perm_insertionSort _ _).mem_iff, List.mem_dedup, List.mem_map]

/-- Within one instrument's bar list the interval starts are strictly
increasing. -/
theorem barsFor_datetimes_sorted {f : Nat} (hf : 0 < f) (sorted : List Tick)
    (i : Str) :
    List.Pairwise (· < ·) ((barsFor f sorted i).map (·.datetime)) := by
  apply List.Pairwise.sublist ?_ (bins_pairwise_lt hf (groupOf sorted i))
  exact filterMap_dt_sublist _ _ (fun b r hr => (dropnaBar_eq_some hr).1) _

/-- Bars emitted by `get_ohlcv`'s per-group loop carry the key of the group
that produced them, so a flatMap over distinct keys filters back to the
producing group. -/
theorem flatMap_filter_group {f : Nat} {L : List Tick}
    (hs : List.Sorted (fun a b => a.datetime ≤ b.datetime) L)
    (keys : List Str) (hnd : keys.Nodup) (i : Str) :
    (keys.flatMap (fun j => barsFor f L j)).filter (fun r => r.ticker == i) =
      if i ∈ keys then barsFor f L i else [] := by
  induction keys with
  | nil => simp
  | cons j keys ih =>
    rw [List.flatMap_cons, List.filter_append,
      ih (List.nodup_cons.mp hnd).2]
    by_cases hji : j = i
    · subst hji
      have hself : (barsFor f L j).filter (fun r => r.ticker == j) =
          barsFor f L j :=
        List.filter_eq_self.mpr fun r hr => by
          simp [barsFor_ticker hs hr]
      have hnotin : j ∉ keys := (List.nodup_cons.mp hnd).1
      simp [hself, hnotin]
    · have hnone : (barsFor f L j).filter (fun r => r.ticker == i) = [] :=
        List.filter_eq_nil_iff.mpr fun r hr => by
          simp [barsFor_ticker hs hr, hji]
      have hij : ¬i = j := fun hh => hji hh.symm
      simp [hnone, hij]

/-- C7 counterexample: the claim asserts instrument groups appear in
first-seen order. With ticker "B" arriving before ticker "A",
`get_ohlcv` lists the "A" group first — pandas `groupby` sorts its keys —
and the sorted order differs from the first-seen order. -/
theorem c7_counterexample :
    (get_ohlcv
        [(⟨0, "B".toList, 10, 1, 1, 1, 1, 1, 1⟩ : Tick),
         (⟨1, "A".toList, 20, 2, 1, 1, 1, 1, 1⟩ : Tick)] 60).toOption.map
        (fun l => l.map (·.ticker)) =
      some ["A".toList, "B".toList] ∧
    [(⟨0, "B".toList, 10, 1, 1, 1, 1, 1, 1⟩ : Tick),
     (⟨1, "A".toList, 20, 2, 1, 1, 1, 1, 1⟩ : Tick)].map (·.ticker) =
      ["B".toList, "A".toList] ∧
    ¬ (["A".toList, "B".toList] = ["B".toList, "A".toList]) := by
  refine ⟨?_, rfl, by decide⟩
  rfl

/-- C7 (amended): the bar sequence of `get_ohlcv` lists instrument groups
contiguously in ascending lexicographic ticker order — pandas `groupby`
sorts its group keys, it does not keep first-seen order — with every group's
interval starts strictly ascending, and every emitted ticker is the ticker
of some input tick. -/
theorem c7_group_order_amended (ticks : List Tick) (frequency : Int)
    (out : List BarRow) (hf : 0 < frequency)
    (h : get_ohlcv ticks frequency = Except.ok out) :
    List.Sorted (fun a b : Str => a ≤ b) (out.map (·.ticker)) ∧
      (∀ r ∈ out, ∃ t ∈ ticks, t.ticker = r.ticker) ∧
      ∀ i, List.Pairwise (· < ·)
        ((out.filter (fun r => r.ticker == i)).map (·.datetime)) := by
  have hsor := sortTicks_sorted ticks
  simp only [get_ohlcv] at h
  split at h
  · simp at h
  · split at h
    · simp at h
    · rw [Except.ok.injEq] at h
      subst h
      refine ⟨?_, ?_, ?_⟩
      · rw [List.map_flatMap, List.flatMap_def]
        apply List.pairwise_flatten.mpr
        refine ⟨?_, ?_⟩
        · intro l' hl'
          obtain ⟨i, hi, rfl⟩ := List.mem_map.mp hl'
          apply List.pairwise_of_forall_mem_list
          intro a ha b hb
          obtain ⟨ra, hra, rfl⟩ := List.mem_map.mp ha
          obtain ⟨rb, hrb, rfl⟩ := List.mem_map.mp hb
          rw [barsFor_ticker hsor hra, barsFor_ticker hsor hrb]
        · rw [List.pairwise_map]
          apply (tickersOf_sorted (sortTicks ticks)).imp
          intro i j hij x hx y hy
          obtain ⟨rx, hrx, rfl⟩ := List.mem_map.mp hx
          obtain ⟨ry, hry, rfl⟩ := List.mem_map.mp hy
          rw [barsFor_ticker hsor hrx, barsFor_ticker hsor hry]
          exact hij
      · intro r hr
        obtain ⟨j, hj, hrj⟩ := List.mem_flatMap.mp hr
        obtain ⟨t, htL, hti⟩ := mem_tickersOf.mp hj
        exact ⟨t, mem_sortTicks.mp htL,
          by rw [hti, barsFor_ticker hsor hrj]⟩
      · intro i
        rw [flatMap_filter_group hsor _ (tickersOf_nodup _) i]
        by_cases hi : i ∈ tickersOf (sortTicks ticks)
        · rw [if_pos hi]
          exact barsFor_datetimes_sorted (by omega) _ i
        · rw [if_neg hi]
          exact List.Pairwise.nil

/-- C7 witness: the amended theorem applied to a concrete collection whose
first-seen instrument order is "B", "A". -/
theorem c7_group_order_amended_witness :
    (0 : Int) < 60 ∧
      get_ohlcv
          [(⟨0, "B".toList, 10, 1, 1, 1, 1, 1, 1⟩ : Tick),
           (⟨1, "A".toList, 20, 2, 1, 1, 1, 1, 1⟩ : Tick)] 60 =
        Except.ok [⟨0, "A".toList, 20, 20, 20, 20, 2⟩,
                   ⟨0, "B".toList, 10, 10, 10, 10, 1⟩] ∧
      (List.Sorted (fun a b : Str => a ≤ b)
          ([(⟨0, "A".toList, 20, 20, 20, 20, 2⟩ : BarRow),
            (⟨0, "B".toList, 10, 10, 10, 10, 1⟩ : BarRow)].map (·.ticker)) ∧
        (∀ r ∈ [(⟨0, "A".toList, 20, 20, 20, 20, 2⟩ : BarRow),
                (⟨0, "B".toList, 10, 10, 10, 10, 1⟩ : BarRow)],
          ∃ t ∈ [(⟨0, "B".toList, 10, 1, 1, 1, 1, 1, 1⟩ : Tick),
                 (⟨1, "A".toList, 20, 2, 1, 1, 1, 1, 1⟩ : Tick)],
            t.ticker = r.ticker) ∧
        ∀ i, List.Pairwise (· < ·)
          (([(⟨0, "A".toList, 20, 20, 20, 20, 2⟩ : BarRow),
             (⟨0, "B".toList, 10, 10, 10, 10, 1⟩ : BarRow)].filter
            (fun r => r.ticker == i)).map (·.datetime))) :=
  ⟨by decide, rfl,
    c7_group_order_amended
      [(⟨0, "B".toList, 10, 1, 1, 1, 1, 1, 1⟩ : Tick),
       (⟨1, "A".toList, 20, 2, 1, 1, 1, 1, 1⟩ : Tick)] 60
      [⟨0, "A".toList, 20, 20, 20, 20, 2⟩,
       ⟨0, "B".toList, 10, 10, 10, 10, 1⟩] (by decide) rfl⟩

/-! ## Claim C3 -/

/-- C3: reconciliation derives the instrument id as the bare symbol for the
"EQ" series and as `symbol + "." + uppercase(series)[:2]` otherwise; in
particular `("TCS","EQ") ↦ "TCS"` and `("TCS","FUTIDX") ↦ "TCS.FU"`. The
first conjunct ties the derivation to the `ticker` column `compare_data`
assigns on the reference frame. -/
theorem c3_identity_normalization :
    (∀ (b : BhavObj) (o : OhlcvObj),
        ((compare_data b o).2.1).tickerCol =
          some (b.rows.map (fun r => deriveTicker r.symbol r.series))) ∧
      (∀ symbol series : Str,
        deriveTicker symbol series =
          if series = "EQ".toList then symbol
          else symbol ++ ['.'] ++ (series.map Char.toUpper).take 2) ∧
      deriveTicker "TCS".toList "EQ".toList = "TCS".toList ∧
      deriveTicker "TCS".toList "FUTIDX".toList = "TCS.FU".toList :=
  ⟨fun _ _ => rfl, fun _ _ => rfl, by decide, by decide⟩

/-! ## Claim C4 -/

/-- pandas `<` on optional cells is true exactly for two present, ordered
values. -/
theorem ltPd_eq_true {a b : Option Rat} :
    ltPd a b = true ↔ ∃ x y, a = some x ∧ b = some y ∧ x < y := by
  cases a <;> cases b <;> simp [ltPd]

/-- pandas `>` on optional cells is true exactly for two present values in
reverse order. -/
theorem gtPd_eq_true {a b : Option Rat} :
    gtPd a b = true ↔ ∃ x y, a = some x ∧ b = some y ∧ y < x := by
  cases a <;> cases b <;> simp [gtPd]

/-- pandas `!=` on optional cells is false exactly for two present, equal
values. -/
theorem nePd_eq_true {α : Type} [DecidableEq α] {a b : Option α} :
    nePd a b = true ↔ ¬∃ v, a = some v ∧ b = some v := by
  cases a <;> cases b <;> simp [nePd]
  exact ne_comm

/-- Membership in a mismatch table is membership of a projected row of the
filtered merged frame. -/
theorem mem_mkTable {α : Type} (hdr : List Str) (proj : MRow → Entry α)
    (rows : List MRow) (x : Entry α) :
    (∃ tbl, mkTable hdr proj rows = some tbl ∧ x ∈ tbl.2) ↔
      ∃ m ∈ rows, proj m = x := by
  unfold mkTable
  by_cases he : rows.isEmpty = true
  · have h0 : rows = [] := List.isEmpty_iff.mp he
    subst h0
    simp
  · simp [he, List.mem_map]

/-- A given merged row's entry appears in a mismatch table exactly when the
row passes the table's predicate, provided the predicate only reads the
projected fields. -/
theorem mem_filter_table {α : Type} (hdr : List Str)
    (f g : MRow → Option α) (pred : MRow → Bool) (rows : List MRow) (m : MRow)
    (hm : m ∈ rows)
    (hp : ∀ m', (⟨m'.datetime, m'.ticker, f m', g m'⟩ : Entry α) =
        (⟨m.datetime, m.ticker, f m, g m⟩ : Entry α) → pred m' = pred m) :
    (∃ tbl, mkTable hdr (fun m' => ⟨m'.datetime, m'.ticker, f m', g m'⟩)
        (rows.filter pred) = some tbl ∧
      (⟨m.datetime, m.ticker, f m, g m⟩ : Entry α) ∈ tbl.2) ↔ pred m = true := by
  rw [mem_mkTable]
  constructor
  · rintro ⟨m', hm', heq⟩
    obtain ⟨_, hpred⟩ := List.mem_filter.mp hm'
    exact (hp m' heq) ▸ hpred
  · intro hpm
    exact ⟨m, List.mem_filter.mpr ⟨hm, hpm⟩, rfl⟩

/-- C4: a merged row lands in `high_mismatch` exactly when both highs are
present and the reference high is strictly below the computed high — the
reverse inequality (and any `NaN` comparison) is never flagged; dually a row
lands in `low_mismatch` exactly when both lows are present and the reference
low is strictly above the computed low. -/
theorem c4_high_low_mismatch_asymmetry (b : BhavObj) (o : OhlcvObj)
    (m : MRow) (hm : m ∈ mergedOf b o) :
    ((∃ tbl, (compare_data b o).1.high_mismatch = some tbl ∧
        (⟨m.datetime, m.ticker, m.high_b, m.high_o⟩ : Entry Rat) ∈ tbl.2) ↔
      ∃ hb ho, m.high_b = some hb ∧ m.high_o = some ho ∧ hb < ho) ∧
    ((∃ tbl, (compare_data b o).1.low_mismatch = some tbl ∧
        (⟨m.datetime, m.ticker, m.low_b, m.low_o⟩ : Entry Rat) ∈ tbl.2) ↔
      ∃ lb lo, m.low_b = some lb ∧ m.low_o = some lo ∧ lo < lb) := by
  constructor
  · have hiff := mem_filter_table
      ["datetime".toList, "ticker".toList, "high_b".toList, "high_o".toList]
      (fun m' => m'.high_b) (fun m' => m'.high_o)
      (fun m' => ltPd m'.high_b m'.high_o) (mergedOf b o) m hm
      (fun m' heq => by
        simp only [Entry.mk.injEq] at heq
        show ltPd m'.high_b m'.high_o = ltPd m.high_b m.high_o
        rw [heq.2.2.1, heq.2.2.2])
    exact hiff.trans ltPd_eq_true
  · have hiff := mem_filter_table
      ["datetime".toList, "ticker".toList, "low_b".toList, "low_o".toList]
      (fun m' => m'.low_b) (fun m' => m'.low_o)
      (fun m' => gtPd m'.low_b m'.low_o) (mergedOf b o) m hm
      (fun m' heq => by
        simp only [Entry.mk.injEq] at heq
        show gtPd m'.low_b m'.low_o = gtPd m.low_b m.low_o
        rw [heq.2.2.1, heq.2.2.2])
    exact hiff.trans gtPd_eq_true

/-- C4 witness: the asymmetry theorem applied to a concrete joined row with
reference high 105 against computed high 107. -/
theorem c4_high_low_mismatch_asymmetry_witness :
    (⟨5, "TCS".toList, some 100, some 105, some 99, some 104, some 50,
       some 100, some 107, some 99, some 104, some 50⟩ : MRow) ∈
      mergedOf
        ⟨["TIMESTAMP".toList, "SYMBOL".toList, "SERIES".toList],
         [⟨5, "TCS".toList, "EQ".toList, some 100, some 105, some 99,
           some 104, some 50⟩], none, none⟩
        ⟨["datetime".toList], [⟨5, "TCS".toList, 100, 107, 99, 104, 50⟩]⟩ ∧
    (((∃ tbl, (compare_data
        ⟨["TIMESTAMP".toList, "SYMBOL".toList, "SERIES".toList],
         [⟨5, "TCS".toList, "EQ".toList, some 100, some 105, some 99,
           some 104, some 50⟩], none, none⟩
        ⟨["datetime".toList],
         [⟨5, "TCS".toList, 100, 107, 99, 104, 50⟩]⟩).1.high_mismatch =
          some tbl ∧
        (⟨5, "TCS".toList, some 105, some 107⟩ : Entry Rat) ∈ tbl.2) ↔
      ∃ hb ho, (some (105 : Rat)) = some hb ∧ (some (107 : Rat)) = some ho ∧
        hb < ho) ∧
    ((∃ tbl, (compare_data
        ⟨["TIMESTAMP".toList, "SYMBOL".toList, "SERIES".toList],
         [⟨5, "TCS".toList, "EQ".toList, some 100, some 105, some 99,
           some 104, some 50⟩], none, none⟩
        ⟨["datetime".toList],
         [⟨5, "TCS".toList, 100, 107, 99, 104, 50⟩]⟩).1.low_mismatch =
          some tbl ∧
        (⟨5, "TCS".toList, some 99, some 99⟩ : Entry Rat) ∈ tbl.2) ↔
      ∃ lb lo, (some (99 : Rat)) = some lb ∧ (some (99 : Rat)) = some lo ∧
        lo < lb)) :=
  ⟨by decide,
    c4_high_low_mismatch_asymmetry
      ⟨["TIMESTAMP".toList, "SYMBOL".toList, "SERIES".toList],
       [⟨5, "TCS".toList, "EQ".toList, some 100, some 105, some 99,
         some 104, some 50⟩], none, none⟩
      ⟨["datetime".toList], [⟨5, "TCS".toList, 100, 107, 99, 104, 50⟩]⟩
      ⟨5, "TCS".toList, some 100, some 105, some 99, some 104, some 50,
       some 100, some 107, some 99, some 104, some 50⟩
      (by decide)⟩

/-! ## Claim C5 -/

/-- C5 counterexample: the claim asserts a null reference volume compared
with a null computed volume is NOT a mismatch. In the code the comparison is
pandas `!=`, for which `NaN != NaN` is `True`: a reference row with a missing
`tottrdqty` and no computed match produces a merged row with both volumes
null, and that row IS reported in `volume_mismatch`. -/
theorem c5_counterexample :
    (compare_data
        ⟨["SYMBOL".toList], [⟨1, "X".toList, "EQ".toList, none, none, none,
          none, none⟩], none, none⟩
        ⟨[], []⟩).1.volume_mismatch =
      some (["datetime".toList, "ticker".toList, "volume_b".toList,
             "volume_o".toList],
        [(⟨1, "X".toList, none, none⟩ : Entry Int)]) := rfl

/-- C5 (amended): a merged row lands in `volume_mismatch` exactly when it is
NOT the case that both volumes are present and equal — a null on either side
mismatches anything, and null vs null IS flagged as a mismatch (pandas `!=`
treats `NaN` as unequal to everything, itself included). -/
theorem c5_volume_mismatch_amended (b : BhavObj) (o : OhlcvObj)
    (m : MRow) (hm : m ∈ mergedOf b o) :
    (∃ tbl, (compare_data b o).1.volume_mismatch = some tbl ∧
        (⟨m.datetime, m.ticker, m.volume_b, m.volume_o⟩ : Entry Int) ∈ tbl.2) ↔
      ¬∃ v, m.volume_b = some v ∧ m.volume_o = some v := by
  have hiff := mem_filter_table
    ["datetime".toList, "ticker".toList, "volume_b".toList, "volume_o".toList]
    (fun m' => m'.volume_b) (fun m' => m'.volume_o)
    (fun m' => nePd m'.volume_b m'.volume_o) (mergedOf b o) m hm
    (fun m' heq => by
      simp only [Entry.mk.injEq] at heq
      show nePd m'.volume_b m'.volume_o = nePd m.volume_b m.volume_o
      rw [heq.2.2.1, heq.2.2.2])
  exact hiff.trans nePd_eq_true

/-- C5 witness: the amended theorem applied to a concrete joined row with
reference volume 50 against computed volume 60. -/
theorem c5_volume_mismatch_amended_witness :
    (⟨5, "TCS".toList, some 100, some 105, some 99, some 104, some 50,
       some 100, some 105, some 99, some 104, some 60⟩ : MRow) ∈
      mergedOf
        ⟨["SYMBOL".toList],
         [⟨5, "TCS".toList, "EQ".toList, some 100, some 105, some 99,
           some 104, some 50⟩], none, none⟩
        ⟨[], [⟨5, "TCS".toList, 100, 105, 99, 104, 60⟩]⟩ ∧
    ((∃ tbl, (compare_data
        ⟨["SYMBOL".toList],
         [⟨5, "TCS".toList, "EQ".toList, some 100, some 105, some 99,
           some 104, some 50⟩], none, none⟩
        ⟨[], [⟨5, "TCS".toList, 100, 105, 99, 104, 60⟩]⟩).1.volume_mismatch =
          some tbl ∧
        (⟨5, "TCS".toList, some 50, some 60⟩ : Entry Int) ∈ tbl.2) ↔
      ¬∃ v, (some (50 : Int)) = some v ∧ (some (60 : Int)) = some v) :=
  ⟨by decide,
    c5_volume_mismatch_amended
      ⟨["SYMBOL".toList],
       [⟨5, "TCS".toList, "EQ".toList, some 100, some 105, some 99,
         some 104, some 50⟩], none, none⟩
      ⟨[], [⟨5, "TCS".toList, 100, 105, 99, 104, 60⟩]⟩
      ⟨5, "TCS".toList, some 100, some 105, some 99, some 104, some 50,
       some 100, some 105, some 99, some 104, some 60⟩
      (by decide)⟩

/-! ## Claim C10 -/

/-- C10: `compare_data` leaves the computed OHLCV frame object untouched and
mutates the reference frame object in place: its column names are
lower-cased and `datetime` and `ticker` columns are assigned (appended,
assuming neither name is already a column) before the join; the data rows
themselves are not modified. -/
theorem c10_frame_effects (b : BhavObj) (o : OhlcvObj)
    (h1 : "datetime".toList ∉ b.cols.map (·.map Char.toLower))
    (h2 : "ticker".toList ∉ b.cols.map (·.map Char.toLower)) :
    (compare_data b o).2.2 = o ∧
      ((compare_data b o).2.1).cols =
        b.cols.map (·.map Char.toLower) ++
          ["datetime".toList, "ticker".toList] ∧
      ((compare_data b o).2.1).rows = b.rows ∧
      ((compare_data b o).2.1).datetimeCol =
        some (b.rows.map (·.timestamp)) ∧
      ((compare_data b o).2.1).tickerCol =
        some (b.rows.map (fun r => deriveTicker r.symbol r.series)) := by
  refine ⟨rfl, ?_, rfl, rfl, rfl⟩
  have h3 : ¬ "ticker".toList = "datetime".toList := by decide
  have h4 : "ticker".toList ∉
      b.cols.map (·.map Char.toLower) ++ ["datetime".toList] := by
    intro hmem
    rcases List.mem_append.mp hmem with h | h
    · exact h2 h
    · exact h3 (List.mem_singleton.mp h)
  show setColName (setColName (b.cols.map (·.map Char.toLower))
      "datetime".toList) "ticker".toList = _
  simp only [setColName]
  rw [if_neg h1, if_neg h4, List.append_assoc]
  rfl

/-- C10 witness: the frame-effect theorem applied to a concrete reference
frame carrying the usual upper-case bhavcopy column names. -/
theorem c10_frame_effects_witness :
    ("datetime".toList ∉
      ["TIMESTAMP".toList, "SYMBOL".toList, "SERIES".toList].map
        (fun c : Str => c.map Char.toLower)) ∧
    ("ticker".toList ∉
      ["TIMESTAMP".toList, "SYMBOL".toList, "SERIES".toList].map
        (fun c : Str => c.map Char.toLower)) ∧
    ((compare_data
        ⟨["TIMESTAMP".toList, "SYMBOL".toList, "SERIES".toList],
         [⟨1, "TCS".toList, "EQ".toList, some 1, some 2, some 1, some 2,
           some 3⟩], none, none⟩
        ⟨["datetime".toList], []⟩).2.2 = ⟨["datetime".toList], []⟩ ∧
      ((compare_data
        ⟨["TIMESTAMP".toList, "SYMBOL".toList, "SERIES".toList],
         [⟨1, "TCS".toList, "EQ".toList, some 1, some 2, some 1, some 2,
           some 3⟩], none, none⟩
        ⟨["datetime".toList], []⟩).2.1).cols =
        ["TIMESTAMP".toList, "SYMBOL".toList, "SERIES".toList].map
          (fun c : Str => c.map Char.toLower) ++
          ["datetime".toList, "ticker".toList] ∧
      ((compare_data
        ⟨["TIMESTAMP".toList, "SYMBOL".toList, "SERIES".toList],
         [⟨1, "TCS".toList, "EQ".toList, some 1, some 2, some 1, some 2,
           some 3⟩], none, none⟩
        ⟨["datetime".toList], []⟩).2.1).rows =
        [⟨1, "TCS".toList, "EQ".toList, some 1, some 2, some 1, some 2,
          some 3⟩] ∧
      ((compare_data
        ⟨["TIMESTAMP".toList, "SYMBOL".toList, "SERIES".toList],
         [⟨1, "TCS".toList, "EQ".toList, some 1, some 2, some 1, some 2,
           some 3⟩], none, none⟩
        ⟨["datetime".toList], []⟩).2.1).datetimeCol =
        some ([⟨1, "TCS".toList, "EQ".toList, some 1, some 2, some 1, some 2,
          some 3⟩].map (fun r : BhavRow => r.timestamp)) ∧
      ((compare_data
        ⟨["TIMESTAMP".toList, "SYMBOL".toList, "SERIES".toList],
         [⟨1, "TCS".toList, "EQ".toList, some 1, some 2, some 1, some 2,
           some 3⟩], none, none⟩
        ⟨["datetime".toList], []⟩).2.1).tickerCol =
        some ([⟨1, "TCS".toList, "EQ".toList, some 1, some 2, some 1, some 2,
          some 3⟩].map (fun r : BhavRow => deriveTicker r.symbol r.series))) :=
  ⟨by decide, by decide,
    c10_frame_effects
      ⟨["TIMESTAMP".toList, "SYMBOL".toList, "SERIES".toList],
       [⟨1, "TCS".toList, "EQ".toList, some 1, some 2, some 1, some 2,
         some 3⟩], none, none⟩
      ⟨["datetime".toList], []⟩ (by decide) (by decide)⟩
